import Mathlib

/-!
Shallow embedding of the core of `src/values_tracker.py` (a Streamlit
journaling app backed by sqlite): the entry/tag store (`add_entry`, `load`)
and the dashboard aggregation (`page_dash`).

Modelling conventions:
* sqlite rows become Lean structures; `NULL`-able columns become `Option`.
* The sqlite connection of `add_entry` is modelled explicitly, because the
  Python source places `c.commit();c.close();st.cache_data.clear()` INSIDE
  the per-rating `for` loop body (one physical line, statements joined by
  semicolons).  So commit/close run once per iteration: a second iteration
  executes `cur.execute` on a closed connection and raises
  `sqlite3.ProgrammingError`, and with zero ratings no commit ever happens
  (the uncommitted entry insert is rolled back when the leaked connection
  is finalised).  The model returns the durable (committed) store together
  with a Bool that is `true` exactly when the Python call raises.
* Timestamps (`datetime.utcnow().isoformat()`, parsed back by pandas) are
  modelled as integers (seconds); `timedelta(days=k)` is `k * 86400`.
* pandas means are modelled in exact rational arithmetic (`mkRat sum count`);
  `.round(1)` is modelled as round-half-to-even at one decimal (the
  documented numpy rule), taken on the exact rational.
* `sort_values(ascending=False)` is a stable descending sort: since pandas
  1.2 (GH 35922) nargsort reverses both the values and the positions before
  the stable ascending argsort and reverses the resulting indexer
  afterwards, so elements with equal keys keep their original order.  The
  model is a stable insertion sort with the descending comparison, which
  keeps tied means in their original, ascending group-key order.
* Python string comparison (used by `groupby`, which sorts its keys) is
  code-point lexicographic; `charLe` implements exactly that on `String.data`.
-/

/-- One row of the sqlite table
`entries (id INTEGER PRIMARY KEY AUTOINCREMENT, ts TEXT, text TEXT, username TEXT)`.
The `username` column is added by migration, so historical rows may hold
`NULL`: hence `Option String`. -/
structure Entry where
  id : Nat
  ts : Int
  text : String
  username : Option String
deriving DecidableEq, Repr

/-- One row of the sqlite table `tags (entry_id INTEGER, value TEXT, rating INTEGER)`.
The `rating` column may hold `NULL` in legacy rows: hence `Option Int`. -/
structure Tag where
  entry_id : Nat
  value : String
  rating : Option Int
deriving DecidableEq, Repr

/-- The durable database state: the two row tables plus the AUTOINCREMENT
counter that yields the next fresh `entries.id`. -/
structure Store where
  entries : List Entry
  tags : List Tag
  nextId : Nat
deriving DecidableEq, Repr

/-- A sqlite connection as seen by `add_entry`: the durable (committed)
store, the pending uncommitted state, and whether `c.close()` has run. -/
structure Conn where
  committed : Store
  pending : Store
  closed : Bool
deriving DecidableEq, Repr

/-- The body of `for v,r in ratings.items():cur.execute("INSERT INTO tags
VALUES (?,?,?)",(eid,v,r));c.commit();c.close();st.cache_data.clear()`
(src/values_tracker.py line 112).  All four statements are the loop body.
On each iteration: executing on a closed connection raises
(`Bool` result `true`, loop aborts); otherwise the tag is inserted into the
pending state, the transaction is committed and the connection closed. -/
def tagLoop (eid : Nat) : List (String × Int) → Conn → Conn × Bool
  | [], c => (c, false)
  | (v, r) :: rest, c =>
    if c.closed then (c, true)
    else
      let p : Store := { c.pending with tags := c.pending.tags ++ [⟨eid, v, some r⟩] }
      tagLoop eid rest { committed := p, pending := p, closed := true }

/-- Model of `add_entry(user,text,ratings)` (src/values_tracker.py lines 110-112).
Opens a connection, inserts the entry row (uncommitted, obtaining the fresh
AUTOINCREMENT id), then runs the per-rating loop.  Returns the durable store
after the call together with `true` iff the Python call raises.  If the loop
never commits (empty `ratings`), the transaction of the leaked connection is
rolled back, so the durable store is unchanged. -/
def add_entry (user text : String) (ts : Int) (ratings : List (String × Int))
    (db : Store) : Store × Bool :=
  let eid := db.nextId
  let pend : Store :=
    { entries := db.entries ++ [⟨eid, ts, text, some user⟩]
      tags := db.tags
      nextId := eid + 1 }
  let res := tagLoop eid ratings { committed := db, pending := pend, closed := false }
  (res.1.committed, res.2)

/-- Model of `load(user)` (src/values_tracker.py lines 114-115):
`SELECT * FROM entries WHERE username=?` and
`SELECT * FROM tags WHERE entry_id IN (SELECT id FROM entries WHERE username=?)`.
SQL `username = ?` is false on `NULL`, so rows with no owner never match:
the model compares against `some user`. -/
def load (user : String) (db : Store) : List Entry × List Tag :=
  (db.entries.filter (fun en => en.username = some user),
   db.tags.filter (fun tg =>
     db.entries.any (fun en => en.username = some user ∧ en.id = tg.entry_id)))

/-- The four options of the dashboard `selectbox` (src/values_tracker.py line 147). -/
inductive Window where
  | last1
  | last7
  | last30
  | allTime
deriving DecidableEq, Repr

/-- Model of `e["ts"].min()` over a non-empty entry frame (the empty case is
unreachable in `page_dash`, which returns earlier; the model yields 0 there). -/
def minTs : List Entry → Int
  | [] => 0
  | en :: rest => rest.foldl (fun a b => min a b.ts) en.ts

/-- The `start` dictionary of `page_dash` (src/values_tracker.py line 148):
`now-timedelta(days=1)`, `now-timedelta(days=7)`, `now-timedelta(days=30)`,
or `e["ts"].min()` for "All time". -/
def windowStart (win : Window) (now : Int) (e : List Entry) : Int :=
  match win with
  | .last1 => now - 86400
  | .last7 => now - 7 * 86400
  | .last30 => now - 30 * 86400
  | .allTime => minTs e

/-- Model of `recent=e[e["ts"]>=pd.Timestamp(start)]` (src/values_tracker.py line 149):
inclusive lower bound, no upper bound. -/
def recentEntries (win : Window) (now : Int) (e : List Entry) : List Entry :=
  e.filter (fun en => windowStart win now e ≤ en.ts)

/-- Model of `tag=t[t["entry_id"].isin(recent["id"])]` (src/values_tracker.py line 149). -/
def tagsInWindow (t : List Tag) (recent : List Entry) : List Tag :=
  t.filter (fun tg => recent.any (fun en => en.id = tg.entry_id))

/-- Model of `tag["rating"].fillna(50,inplace=True)` (src/values_tracker.py line 151):
a missing rating becomes 50; a present rating is left unchanged. -/
def fillna50 (ts : List Tag) : List Tag :=
  ts.map (fun t => { t with rating := some (t.rating.getD 50) })

/-- pandas `mean()` of the `rating` column of a group, in exact rational
arithmetic: sum of the ratings over the row count.  Applied after `fillna50`,
so every rating is present (`getD 0` merely unwraps). -/
def meanRating (ts : List Tag) : ℚ :=
  mkRat (ts.map (fun t => t.rating.getD 0)).sum ts.length

/-- Round-half-to-even of `10 * q`, computed on numerator and denominator
with integer arithmetic (the documented numpy rounding rule, on the exact
rational). -/
def roundHalfEvenTenths (q : ℚ) : Int :=
  let n := 10 * q.num
  let d := (q.den : Int)
  let f := Int.fdiv n d
  let r := n - f * d
  if 2 * r < d then f
  else if d < 2 * r then f + 1
  else if f % 2 = 0 then f else f + 1

/-- Model of `.round(1)` (src/values_tracker.py line 152), modelled on the exact
rational: round half to even at one decimal place. -/
def round1 (q : ℚ) : ℚ := mkRat (roundHalfEvenTenths q) 10

/-- Code-point lexicographic comparison of character lists: exactly the Python
string ordering, used by pandas when sorting `groupby` keys. -/
def charLe : List Char → List Char → Bool
  | [], _ => true
  | _ :: _, [] => false
  | a :: as, b :: bs =>
    if a.val.toNat < b.val.toNat then true
    else if b.val.toNat < a.val.toNat then false
    else charLe as bs

/-- Python string `<=` (code-point lexicographic), as a proposition. -/
def strLe (a b : String) : Prop := charLe a.data b.data = true

instance : DecidableRel strLe :=
  fun a b => inferInstanceAs (Decidable (charLe a.data b.data = true))

/-- The group keys of `tag.groupby("value")` (src/values_tracker.py line 152):
the distinct values, sorted ascending (pandas groupby sorts its keys). -/
def groupKeys (ts : List Tag) : List String :=
  List.insertionSort strLe (ts.map (fun t => t.value)).dedup

/-- Model of `sort_values(ascending=False)` (src/values_tracker.py line 152):
a stable descending sort by the mean.  On pandas 1.2 and later this sort is
stable (the double reversal inside nargsort, GH 35922), so rows with equal
means keep their original, ascending group-key order. -/
def sortByMean (l : List (String × ℚ)) : List (String × ℚ) :=
  List.insertionSort (fun a b => b.2 ≤ a.2) l

/-- Model of `tag.groupby("value")["rating"].mean().round(1).sort_values(ascending=False)`
(src/values_tracker.py line 152). -/
def aggregate (ts : List Tag) : List (String × ℚ) :=
  sortByMean ((groupKeys ts).map
    (fun v => (v, round1 (meanRating (ts.filter (fun t => t.value = v))))))

/-- The three distinguishable outcomes of the dashboard page:
`st.info("No entries yet")`, `st.info("No tags in window")`, or the ranked
`avg_rating` frame rendered by `st.bar_chart`/`st.dataframe`. -/
inductive DashResult where
  | noEntries
  | noTagsInWindow
  | ranked : List (String × ℚ) → DashResult
deriving DecidableEq, Repr

/-- Model of `page_dash(user)` (src/values_tracker.py lines 144-153), with the
ambient `datetime.utcnow()` and the selectbox choice passed explicitly. -/
def page_dash (user : String) (db : Store) (win : Window) (now : Int) : DashResult :=
  let et := load user db
  if et.1 = [] then .noEntries
  else
    let recent := recentEntries win now et.1
    let tag := tagsInWindow et.2 recent
    if tag = [] then .noTagsInWindow
    else .ranked (aggregate (fillna50 tag))

/-! Concrete stores used in the instance theorems below. -/

/-- A freshly created database: no rows, next AUTOINCREMENT id 1. -/
def store0 : Store := ⟨[], [], 1⟩

/-- A store with one tagless entry of user `u`. -/
def s7 : Store := ⟨[⟨1, 1000, "x", some "u"⟩], [], 2⟩

/-- A store with one tagged entry of user `u` at timestamp 0 (far in the
past relative to the `now` used with it). -/
def s10 : Store := ⟨[⟨1, 0, "old", some "u"⟩], [⟨1, "Health", some 10⟩], 2⟩

/-- A store with one tagged entry owned by user alice. -/
def dbW : Store := ⟨[⟨1, 0, "hi", some "alice"⟩], [⟨1, "Health", some 10⟩], 2⟩

/-- The entry sitting exactly on the Last-1-day window boundary when
`now = 86400`. -/
def en5 : Entry := ⟨1, 0, "boundary", some "u"⟩

/-! Helper lemmas. -/

/-- Folding `min` over timestamps bounds the seed and every element. -/
theorem foldlMin_le (rest : List Entry) (a : Int) :
    rest.foldl (fun x b => min x b.ts) a ≤ a ∧
      ∀ en ∈ rest, rest.foldl (fun x b => min x b.ts) a ≤ en.ts := by
  induction rest generalizing a with
  | nil => simp
  | cons hd tl ih =>
    simp only [List.foldl_cons]
    obtain ⟨h1, h2⟩ := ih (min a hd.ts)
    refine ⟨le_trans h1 (min_le_left _ _), ?_⟩
    intro en hen
    rcases List.mem_cons.1 hen with h | h
    · rw [h]; exact le_trans h1 (min_le_right _ _)
    · exact h2 en h

/-- The minimum timestamp is a lower bound on every timestamp of the list. -/
theorem minTs_le (e : List Entry) (en : Entry) (he : en ∈ e) : minTs e ≤ en.ts := by
  cases e with
  | nil => cases he
  | cons hd tl =>
    rcases List.mem_cons.1 he with h | h
    · rw [h]; exact (foldlMin_le tl hd.ts).1
    · exact (foldlMin_le tl hd.ts).2 en h

/-- Once the connection is closed, the loop never changes it again: the
next iteration raises immediately. -/
theorem tagLoop_closed (eid : Nat) (l : List (String × Int)) (c : Conn)
    (h : c.closed = true) : (tagLoop eid l c).1 = c := by
  cases l with
  | nil => rfl
  | cons p rest =>
    obtain ⟨v, r⟩ := p
    simp [tagLoop, h]

/-- The durable store after `add_entry` with at least one rating: the entry
row plus only the FIRST tag are committed (the commit/close sit inside the
loop body, so iteration two onwards raises on a closed connection). -/
theorem add_entry_cons (user text : String) (ts : Int) (v : String) (r : Int)
    (rest : List (String × Int)) (db : Store) :
    (add_entry user text ts ((v, r) :: rest) db).1 =
      ⟨db.entries ++ [⟨db.nextId, ts, text, some user⟩],
       db.tags ++ [⟨db.nextId, v, some r⟩], db.nextId + 1⟩ := by
  have h := tagLoop_closed db.nextId rest
    ⟨⟨db.entries ++ [⟨db.nextId, ts, text, some user⟩],
      db.tags ++ [⟨db.nextId, v, some r⟩], db.nextId + 1⟩,
     ⟨db.entries ++ [⟨db.nextId, ts, text, some user⟩],
      db.tags ++ [⟨db.nextId, v, some r⟩], db.nextId + 1⟩,
     true⟩ rfl
  simp only [add_entry, tagLoop]
  simp only [Bool.false_eq_true, if_false]
  exact congrArg Conn.committed h

/-- Claim C1 (refuted; the spec states the intended behaviour, the code is
a slip): adding entry "felt great" with ratings Health 80, Growth 60 for
user "demo" on a fresh store does NOT persist one Entry plus two Tags.
Because commit and close sit inside the per-rating loop, the second tag
insert raises on a closed connection (result flag `true`) and the durable
store holds the Entry and only the FIRST tag; a subsequent load returns
one Entry and one Tag, not two. -/
theorem C1_two_ratings_crash :
    add_entry "demo" "felt great" 0 [("Health", 80), ("Growth", 60)] store0 =
      (⟨[⟨1, 0, "felt great", some "demo"⟩], [⟨1, "Health", some 80⟩], 2⟩, true) ∧
    (load "demo" (add_entry "demo" "felt great" 0
      [("Health", 80), ("Growth", 60)] store0).1).1.length = 1 ∧
    (load "demo" (add_entry "demo" "felt great" 0
      [("Health", 80), ("Growth", 60)] store0).1).2.length = 1 := by
  decide

/-- Claim C2: per-user isolation of `load`.  Given distinct users A and B
and a store whose AUTOINCREMENT counter is ahead of every stored id (always
true for stores produced by the code), (1) the rows visible to A are
unchanged by an `add_entry` of B; (2) every Entry returned for A is owned
by A; (3) a row lacking an owner (`username = NULL`) is excluded from every
`load` result; (4) every Tag returned for A references an Entry owned by A. -/
theorem C2_load_isolation (db : Store) (A B text : String) (ts : Int)
    (ratings : List (String × Int)) (hAB : A ≠ B)
    (hfresh : ∀ en ∈ db.entries, en.id < db.nextId) :
    load A (add_entry B text ts ratings db).1 = load A db ∧
    (∀ en ∈ (load A db).1, en.username = some A) ∧
    (∀ en ∈ db.entries, en.username = none → en ∉ (load A db).1) ∧
    (∀ tg ∈ (load A db).2, ∃ en ∈ db.entries,
      en.username = some A ∧ en.id = tg.entry_id) := by
  have hBA : B ≠ A := Ne.symm hAB
  refine ⟨?_, ?_, ?_, ?_⟩
  · rcases ratings with _ | ⟨⟨v, r⟩, rest⟩
    · rfl
    · rw [add_entry_cons]
      unfold load
      simp only [Prod.mk.injEq]
      constructor
      · rw [List.filter_append]
        have hone : List.filter (fun en : Entry => decide (en.username = some A))
            [⟨db.nextId, ts, text, some B⟩] = [] := by
          simp [hBA]
        rw [hone, List.append_nil]
      · rw [List.filter_append]
        have hnew : List.filter (fun tg : Tag => (db.entries ++
              ([⟨db.nextId, ts, text, some B⟩] : List Entry)).any
              (fun en : Entry => decide (en.username = some A ∧ en.id = tg.entry_id)))
            ([⟨db.nextId, v, some r⟩] : List Tag) = [] := by
          rw [List.filter_eq_nil_iff]
          intro tg htg
          rcases List.mem_singleton.1 htg with rfl
          simp only [List.any_eq_true, decide_eq_true_eq, not_exists]
          rintro en ⟨hen, hu, hid⟩
          rcases List.mem_append.1 hen with h | h
          · exact absurd hid (Nat.ne_of_lt (hfresh en h))
          · rcases List.mem_singleton.1 h with rfl
            exact hBA (Option.some.inj hu)
        rw [hnew, List.append_nil]
        apply List.filter_congr
        intro tg htg
        simp only [List.any_append, List.any_cons, List.any_nil, Bool.or_false]
        simp [hBA]
  · intro en hen
    have hen2 : en ∈ db.entries.filter (fun x : Entry => decide (x.username = some A)) := hen
    have h3 := List.of_mem_filter hen2
    simp only [decide_eq_true_eq] at h3
    exact h3
  · intro en _ hnone hmem
    have hmem2 : en ∈ db.entries.filter (fun x : Entry => decide (x.username = some A)) := hmem
    have h3 := List.of_mem_filter hmem2
    simp only [decide_eq_true_eq] at h3
    rw [hnone] at h3
    exact Option.noConfusion h3
  · intro tg htg
    simp only [load, List.mem_filter, List.any_eq_true, decide_eq_true_eq] at htg
    exact htg.2

/-- Witness for C2 at a concrete store: a bob write is invisible to alice. -/
theorem C2_witness :
    load "alice" (add_entry "bob" "yo" 5 [("Growth", 7)] dbW).1 = load "alice" dbW :=
  (C2_load_isolation dbW "alice" "bob" "yo" 5 [("Growth", 7)]
    (by decide) (by decide)).1

/-- Claim C3 counterexample: `add_entry` with rating 150 (outside [0,99]),
empty owner and empty text is NOT rejected: no error is raised and the row
is written with rating 150, so the store does not stay unchanged. -/
theorem C3_counterexample :
    store0.tags = [] ∧
    add_entry "" "" 0 [("Health", 150)] store0 =
      (⟨[⟨1, 0, "", some ""⟩], [⟨1, "Health", some 150⟩], 2⟩, false) := by
  decide

/-- Claim C3 as amended: `add_entry` performs no validation at all.  Any
owner (even empty), any text (even empty) and any integer rating are
accepted and stored verbatim, with no error; in particular ratings inside
[0,99] are stored exactly as given.  (The [0,99] bound is enforced only
upstream by the UI slider, not by `add_entry`.) -/
theorem C3_no_validation (user text : String) (ts : Int) (v : String) (r : Int)
    (db : Store) :
    add_entry user text ts [(v, r)] db =
      (⟨db.entries ++ [⟨db.nextId, ts, text, some user⟩],
        db.tags ++ [⟨db.nextId, v, some r⟩], db.nextId + 1⟩, false) := rfl

/-- Claim C5: window bounds.  For an entry of the supplied frame: the
Last-1/7/30-day windows keep it exactly when its timestamp is at least
now minus 1, 7 or 30 times 86400 seconds (inclusive lower bound); an entry
at exactly now - 86400 is kept by Last-1-day while one second older is
dropped; there is no upper bound (future timestamps are kept); All-time
uses the minimum timestamp of the supplied entries, so it keeps every
entry. -/
theorem C5_window_inclusive (e : List Entry) (now : Int) (en : Entry) (he : en ∈ e) :
    (en ∈ recentEntries .last1 now e ↔ now - 86400 ≤ en.ts) ∧
    (en ∈ recentEntries .last7 now e ↔ now - 7 * 86400 ≤ en.ts) ∧
    (en ∈ recentEntries .last30 now e ↔ now - 30 * 86400 ≤ en.ts) ∧
    (en.ts = now - 86400 → en ∈ recentEntries .last1 now e) ∧
    (en.ts = now - 86401 → en ∉ recentEntries .last1 now e) ∧
    (now ≤ en.ts → en ∈ recentEntries .last1 now e) ∧
    en ∈ recentEntries .allTime now e := by
  have hmem : ∀ c : Int, en ∈ e.filter (fun x : Entry => decide (c ≤ x.ts)) ↔ c ≤ en.ts := by
    intro c
    simp [List.mem_filter, he]
  refine ⟨?_, ?_, ?_, ?_, ?_, ?_, ?_⟩
  · exact hmem (now - 86400)
  · exact hmem (now - 7 * 86400)
  · exact hmem (now - 30 * 86400)
  · intro h
    exact (hmem (now - 86400)).2 (by omega)
  · intro h hmm
    have := (hmem (now - 86400)).1 hmm
    omega
  · intro h
    exact (hmem (now - 86400)).2 (by omega)
  · exact (hmem (minTs e)).2 (minTs_le e en he)

/-- Witness for C5 at the concrete boundary entry with timestamp
now - 86400. -/
theorem C5_witness :
    en5 ∈ recentEntries .last1 86400 [en5] ∧
    en5 ∈ recentEntries .allTime 86400 [en5] := by
  have h := C5_window_inclusive [en5] 86400 en5 (by decide)
  exact ⟨h.2.2.2.1 (by decide), h.2.2.2.2.2.2⟩

/-- Claim C6: default fill.  The mean computed after `fillna50` equals the
mean in which every missing rating contributes exactly 50 and every present
rating contributes its stored value unchanged; in particular a
single-missing-rating group has mean 50 and a single-present-rating group
has mean equal to that rating. -/
theorem C6_default_fill :
    (∀ ts : List Tag,
      meanRating (fillna50 ts) =
        mkRat (ts.map (fun t => t.rating.getD 50)).sum ts.length) ∧
    (∀ eid v, meanRating (fillna50 [⟨eid, v, none⟩]) = mkRat 50 1) ∧
    (∀ eid v (r : Int), meanRating (fillna50 [⟨eid, v, some r⟩]) = mkRat r 1) := by
  refine ⟨?_, ?_, ?_⟩
  · intro ts
    have hmap : (fillna50 ts).map (fun t => t.rating.getD 0)
        = ts.map (fun t => t.rating.getD 50) := by
      unfold fillna50
      rw [List.map_map]
      apply List.map_congr_left
      intro a _
      simp [Function.comp]
    have hlen : (fillna50 ts).length = ts.length := by
      unfold fillna50
      rw [List.length_map]
    unfold meanRating
    rw [hmap, hlen]
  · intro eid v
    simp [meanRating, fillna50]
  · intro eid v r
    simp [meanRating, fillna50]

/-- Claim C7: empty states.  With no visible entries the dashboard yields
the no-entries state; with visible entries but no tags in the window it
yields the distinct no-tags-in-window state; the two states differ from
each other and neither equals any ranked list. -/
theorem C7_empty_states (user : String) (db : Store) (win : Window) (now : Int) :
    ((load user db).1 = [] → page_dash user db win now = .noEntries) ∧
    ((load user db).1 ≠ [] →
      tagsInWindow (load user db).2 (recentEntries win now (load user db).1) = [] →
      page_dash user db win now = .noTagsInWindow) ∧
    (DashResult.noEntries ≠ DashResult.noTagsInWindow) ∧
    (∀ l, DashResult.ranked l ≠ DashResult.noEntries) ∧
    (∀ l, DashResult.ranked l ≠ DashResult.noTagsInWindow) := by
  refine ⟨?_, ?_, by simp, fun l => by simp, fun l => by simp⟩
  · intro h
    simp only [page_dash]
    rw [if_pos h]
  · intro h1 h2
    simp only [page_dash]
    rw [if_neg h1, if_pos h2]

/-- Witness for C7: a fresh store gives the no-entries state; a store with
one tagless entry gives the no-tags-in-window state. -/
theorem C7_witness :
    page_dash "u" store0 .last1 0 = .noEntries ∧
    page_dash "u" s7 .allTime 2000 = .noTagsInWindow :=
  ⟨(C7_empty_states "u" store0 .last1 0).1 (by decide),
   (C7_empty_states "u" s7 .allTime 2000).2.1 (by decide) (by decide)⟩

/-- Claim C9: calling `add_entry` with an empty ratings mapping leaves the
durable store unchanged and raises nothing, because the commit statement
sits inside the per-rating loop and never executes; a subsequent `load`
returns exactly what it returned before the call. -/
theorem C9_empty_ratings_no_commit (user text : String) (ts : Int) (db : Store) :
    add_entry user text ts [] db = (db, false) ∧
    load user (add_entry user text ts [] db).1 = load user db :=
  ⟨rfl, rfl⟩

/-- Claim C10: when a user has at least one visible entry but every one of
them lies strictly before the window start, the dashboard reports the
no-tags-in-window state, not the no-entries state, because the emptiness
check runs on the full entry set before window filtering. -/
theorem C10_no_entries_check_precedes_window (user : String) (db : Store)
    (win : Window) (now : Int)
    (hne : (load user db).1 ≠ [])
    (hout : ∀ en ∈ (load user db).1, en.ts < windowStart win now (load user db).1) :
    page_dash user db win now = .noTagsInWindow := by
  have hrec : recentEntries win now (load user db).1 = [] := by
    rw [recentEntries, List.filter_eq_nil_iff]
    intro en hen
    simp only [decide_eq_true_eq]
    have := hout en hen
    omega
  have htag : tagsInWindow (load user db).2
      (recentEntries win now (load user db).1) = [] := by
    rw [hrec]
    simp [tagsInWindow]
  simp only [page_dash]
  rw [if_neg hne, if_pos htag]

/-- Witness for C10: one entry at timestamp 0 viewed with a Last-7-days
window at now = 1000000. -/
theorem C10_witness : page_dash "u" s10 .last7 1000000 = .noTagsInWindow :=
  C10_no_entries_check_precedes_window "u" s10 .last7 1000000 (by decide) (by decide)
